import Mathlib

/-!
Shallow embedding of the butterflyfin-api ledger core
(src/src/database/{banks,accounts,categories,transactions}.py,
src/src/utils/db_utils.py, src/src/views/networth.py).

Each CSV-backed collection is modelled as `Option (List row)`:
`none` is a missing CSV file, `some rows` is an existing file holding
`rows` (a header-only file is `some []`).  Monetary values are modelled
as exact rationals.  Python `ValueError` and `TypeError` become the
`Err` error type, and every database function is a pure function from
the database state to `Except Err (result × new state)`; a Python
exception propagating out of a function before its `to_csv` calls means
the corresponding collections are unchanged, which in the embedding is
an `Except.error` result that carries no new state.
-/

namespace ButterflyFin

/-- Python exceptions escaping the database layer: `ValueError` raised by
the validation and lookup code, and `TypeError` raised by the interpreter
on a call with an unexpected keyword argument. -/
inductive Err where
  | valueError : Err
  | typeError : Err
deriving DecidableEq, Repr

/-- A row of data/banks.csv (src/src/database/banks.py `add_bank`). -/
structure Bank where
  id : Nat
  name : String
  country : String
deriving DecidableEq, Repr

/-- A row of data/accounts.csv (src/src/database/accounts.py `add_account`):
`balance` is initialised from `initial_balance` and thereafter mutated only
by `update_account_balance`. -/
structure Account where
  id : Nat
  name : String
  bank : String
  account_type : String
  initial_balance : ℚ
  balance : ℚ
deriving DecidableEq, Repr

/-- A row of data/categories.csv (src/src/database/categories.py). -/
structure Category where
  id : Nat
  name : String
deriving DecidableEq, Repr

/-- A row of data/transactions.csv (src/src/database/transactions.py
`add_transaction`): `amount` is stored signed (positive for Income,
negative otherwise). -/
structure Transaction where
  id : Nat
  date : String
  name : String
  amount : ℚ
  category : String
  account : String
  transaction_type : String
deriving DecidableEq, Repr

/-- A row of data/recurring_transactions.csv (src/src/database/transactions.py
`create_recurring_template`): `amount` is stored signed like a transaction,
`account` is optional. -/
structure Template where
  id : Nat
  name : String
  transaction_type : String
  amount : ℚ
  start_date : Option String
  end_date : Option String
  frequency : String
  category : String
  account : Option String
deriving DecidableEq, Repr

/-- The whole persistent state: one optional CSV file per collection. -/
structure DB where
  banks : Option (List Bank)
  accounts : Option (List Account)
  categories : Option (List Category)
  transactions : Option (List Transaction)
  recurring : Option (List Template)
deriving DecidableEq, Repr

/-- The rows a possibly-missing CSV file holds (missing file = no rows). -/
def rowsOf (table : Option (List α)) : List α :=
  table.getD []

/-- src/src/utils/db_utils.py `validate_value(table, value)`: raises
`ValueError` when the CSV file does not exist or when `value` is not found
in the `name` column, otherwise returns.  The Python function is generic in
the table name; here the table's rows and its name accessor are passed in. -/
def validate_value (table : Option (List α)) (nameOf : α → String) (value : String) :
    Except Err Unit :=
  match table with
  | none => .error .valueError
  | some rows => if value ∈ rows.map nameOf then .ok () else .error .valueError

/-- `int(df_original["id"].max())` over a row list (0 on an empty list,
which the callers never use: they only take the max of a nonempty list). -/
def maxId (idOf : α → Nat) (rows : List α) : Nat :=
  (rows.map idOf).foldr max 0

/-- The id every `add_*` function assigns: `df["id"] = 1`, overwritten with
`int(df_original["id"].max()) + 1` when the CSV file exists and is
nonempty. -/
def next_id (table : Option (List α)) (idOf : α → Nat) : Nat :=
  match table with
  | none => 1
  | some rows => if rows.isEmpty then 1 else maxId idOf rows + 1

/-- Modelled from the spec: `ensure_id_first_column` is imported from
src/utils/db_utils.py by every database module and applied before each
persist, but its definition is absent from the provided sources.  The spec
says column ordering on persistence places `id` first for readability and
is a presentation contract, not a semantic one, so on this row-level
embedding it is the identity on the row list. -/
def ensure_id_first_column (rows : List α) : List α :=
  rows

/-- src/src/database/accounts.py `update_account_balance(account_name, amount)`:
raises `ValueError` when accounts.csv is missing or no account row is named
`account_name`; otherwise adds `amount` to the `balance` of every row named
`account_name`, persists, and returns `.values[0]` of the updated selection,
i.e. the first matching row's new balance. -/
def update_account_balance (db : DB) (account_name : String) (amount : ℚ) :
    Except Err (ℚ × DB) :=
  match db.accounts with
  | none => .error .valueError
  | some rows =>
    match rows.find? (fun a => a.name == account_name) with
    | none => .error .valueError
    | some a =>
      let rows' := rows.map (fun b =>
        if b.name == account_name then { b with balance := b.balance + amount } else b)
      .ok (a.balance + amount, { db with accounts := some rows' })

/-- The add-transaction request body (src/main.py `TransactionAddRequest`)
after `payload.pop("task")` has dropped the request discriminator. -/
structure TxPayload where
  date : String
  name : String
  amount : ℚ
  category : String
  account : String
  transaction_type : String
deriving DecidableEq, Repr

/-- src/src/database/transactions.py `add_transaction`: validates the
`category` and `account` references, rejects `amount <= 0`, stores the
signed amount (positive iff `transaction_type == "Income"`), assigns the
next id, updates the account balance (accounts.csv is written before
transactions.csv), appends the row and returns it with the new balance. -/
def add_transaction (db : DB) (p : TxPayload) :
    Except Err (Transaction × ℚ × DB) :=
  match validate_value db.categories Category.name p.category with
  | .error e => .error e
  | .ok _ =>
  match validate_value db.accounts Account.name p.account with
  | .error e => .error e
  | .ok _ =>
  if p.amount ≤ 0 then .error .valueError
  else
    let signed : ℚ := if p.transaction_type == "Income" then p.amount else -p.amount
    let tx : Transaction :=
      { id := next_id db.transactions Transaction.id, date := p.date, name := p.name,
        amount := signed, category := p.category, account := p.account,
        transaction_type := p.transaction_type }
    let rows' := ensure_id_first_column (rowsOf db.transactions ++ [tx])
    match update_account_balance db p.account signed with
    | .error e => .error e
    | .ok (new_balance, db1) =>
      .ok (tx, new_balance, { db1 with transactions := some rows' })

/-- src/src/database/transactions.py `delete_transaction`: raises
`ValueError` when transactions.csv is missing or the id is absent;
otherwise drops every row with that id, reverses the first matching row's
signed amount on its account (accounts.csv is written before
transactions.csv, so a failing reversal leaves transactions.csv unchanged)
and returns the removed row with the new balance. -/
def delete_transaction (db : DB) (tid : Nat) :
    Except Err (Transaction × ℚ × DB) :=
  match db.transactions with
  | none => .error .valueError
  | some rows =>
    match rows.find? (fun t => t.id == tid) with
    | none => .error .valueError
    | some t =>
      let rows' := rows.filter (fun r => r.id != tid)
      match update_account_balance db t.account (-t.amount) with
      | .error e => .error e
      | .ok (new_balance, db1) =>
        .ok (t, new_balance, { db1 with transactions := some rows' })

/-- The add-account request body (src/main.py `AccountAddRequest`) after the
task discriminator is dropped. -/
structure AccountPayload where
  name : String
  bank : String
  account_type : String
  initial_balance : ℚ
deriving DecidableEq, Repr

/-- src/src/database/accounts.py `add_account`: validates `bank`, sets
`balance = initial_balance`, rejects a duplicate `name` (the Python check
runs only when the CSV exists and is nonempty, which is equivalent to
membership in the row list since membership in an empty list is false),
assigns the next id and appends. -/
def add_account (db : DB) (p : AccountPayload) : Except Err (Account × DB) :=
  match validate_value db.banks Bank.name p.bank with
  | .error e => .error e
  | .ok _ =>
    let rows := rowsOf db.accounts
    if p.name ∈ rows.map Account.name then .error .valueError
    else
      let acc : Account :=
        { id := next_id db.accounts Account.id, name := p.name, bank := p.bank,
          account_type := p.account_type, initial_balance := p.initial_balance,
          balance := p.initial_balance }
      .ok (acc, { db with accounts := some (ensure_id_first_column (rows ++ [acc])) })

/-- The add-bank request body (src/main.py `BankAddRequest`). -/
structure BankPayload where
  name : String
  country : String
deriving DecidableEq, Repr

/-- src/src/database/banks.py `add_bank`: rejects a duplicate `name`,
assigns the next id and appends. -/
def add_bank (db : DB) (p : BankPayload) : Except Err (Bank × DB) :=
  let rows := rowsOf db.banks
  if p.name ∈ rows.map Bank.name then .error .valueError
  else
    let b : Bank := { id := next_id db.banks Bank.id, name := p.name, country := p.country }
    .ok (b, { db with banks := some (ensure_id_first_column (rows ++ [b])) })

/-- src/src/database/categories.py `add_category`: rejects a duplicate
`name`, assigns the next id and appends. -/
def add_category (db : DB) (name : String) : Except Err (Category × DB) :=
  let rows := rowsOf db.categories
  if name ∈ rows.map Category.name then .error .valueError
  else
    let c : Category := { id := next_id db.categories Category.id, name := name }
    .ok (c, { db with categories := some (ensure_id_first_column (rows ++ [c])) })

/-- src/src/database/banks.py `delete_bank`: drops the rows with the given
id after checking the file exists and the id is present.  No check of the
accounts that still reference the bank by name is performed. -/
def delete_bank (db : DB) (bid : Nat) : Except Err (Bank × DB) :=
  match db.banks with
  | none => .error .valueError
  | some rows =>
    match rows.find? (fun b => b.id == bid) with
    | none => .error .valueError
    | some b => .ok (b, { db with banks := some (rows.filter (fun r => r.id != bid)) })

/-- src/src/database/accounts.py `delete_account`: drops the rows with the
given id; no check of transactions that still reference the account. -/
def delete_account (db : DB) (aid : Nat) : Except Err (Account × DB) :=
  match db.accounts with
  | none => .error .valueError
  | some rows =>
    match rows.find? (fun a => a.id == aid) with
    | none => .error .valueError
    | some a => .ok (a, { db with accounts := some (rows.filter (fun r => r.id != aid)) })

/-- src/src/database/categories.py `delete_category`: drops the rows with
the given id; no check of transactions that still reference the category. -/
def delete_category (db : DB) (cid : Nat) : Except Err (Category × DB) :=
  match db.categories with
  | none => .error .valueError
  | some rows =>
    match rows.find? (fun c => c.id == cid) with
    | none => .error .valueError
    | some c => .ok (c, { db with categories := some (rows.filter (fun r => r.id != cid)) })

/-- The create-recurring-template request body (src/main.py
`TransactionCreateRecurringRequest`). -/
structure TemplatePayload where
  name : String
  transaction_type : String
  amount : ℚ
  start_date : Option String
  end_date : Option String
  frequency : String
  category : String
  account : Option String
deriving DecidableEq, Repr

/-- Python truthiness of an optional string: `None` and `""` are falsy. -/
def strTruthy : Option String → Bool
  | none => false
  | some s => !s.isEmpty

/-- src/src/database/transactions.py `create_recurring_template`: validates
`category`, validates `account` only when it is truthy, rejects
`amount <= 0`, stores the signed amount, rejects a duplicate template
`name`, assigns the next id and appends.  Templates have no balance
effect. -/
def create_recurring_template (db : DB) (p : TemplatePayload) :
    Except Err (Template × DB) :=
  match validate_value db.categories Category.name p.category with
  | .error e => .error e
  | .ok _ =>
  match (match p.account with
         | some s =>
           if s.isEmpty then Except.ok () else validate_value db.accounts Account.name s
         | none => Except.ok ()) with
  | .error e => .error e
  | .ok _ =>
  if p.amount ≤ 0 then .error .valueError
  else
    let signed : ℚ := if p.transaction_type == "Income" then p.amount else -p.amount
    let rows := rowsOf db.recurring
    if p.name ∈ rows.map Template.name then .error .valueError
    else
      let t : Template :=
        { id := next_id db.recurring Template.id, name := p.name,
          transaction_type := p.transaction_type, amount := signed,
          start_date := p.start_date, end_date := p.end_date,
          frequency := p.frequency, category := p.category, account := p.account }
      .ok (t, { db with recurring := some (ensure_id_first_column (rows ++ [t])) })

/-- The add-recurring request body (src/main.py
`TransactionAddRecurringRequest`): `recurring_transaction_id`, `date`,
optional `amount` and `account` overrides.  The request model has no
`transaction_type` field. -/
structure RecPayload where
  recurring_transaction_id : Nat
  date : String
  amount : Option ℚ
  account : Option String
deriving DecidableEq, Repr

/-- src/src/database/transactions.py `add_recurring_transaction`.  Its first
statement after popping the task key is
`validate_value("recurring_transactions", payload["recurring_transaction_id"], col_name="id")`,
but `validate_value` in src/src/utils/db_utils.py is declared as
`validate_value(table, value)` with no `col_name` parameter, so in Python
this call raises `TypeError` (unexpected keyword argument) before any
lookup, file read, or write happens; the rest of the function body is
unreachable.  The embedding therefore returns that `TypeError` on every
input, leaving every collection untouched. -/
def add_recurring_transaction (_db : DB) (_p : RecPayload) :
    Except Err (Transaction × ℚ × DB) :=
  .error .typeError

/-- Result of src/src/views/networth.py `calculate_net_worth`: either the
bare float `0.0` (the empty branches) or a dict with the total and the
per-account-type breakdown. -/
inductive NetWorth where
  | scalar : ℚ → NetWorth
  | table : ℚ → List (String × ℚ) → NetWorth
deriving DecidableEq, Repr

/-- `df.groupby("account_type")["balance"].sum().to_dict()` on a row list:
one entry per distinct `account_type` holding the sum of the balances of
that group.  The entry order of a Python dict is immaterial; pandas orders
groups by key, here the distinct keys are listed in `dedup` order. -/
def group_sum (rows : List Account) : List (String × ℚ) :=
  ((rows.map Account.account_type).dedup).map
    (fun k => (k, ((rows.filter (fun a => a.account_type == k)).map Account.balance).sum))

/-- src/src/views/networth.py `calculate_net_worth`: returns the float
`0.0` when accounts.csv is missing, and when the frame is empty or has no
`balance` column (in this embedding the column set is fixed by the
`Account` schema, so only emptiness applies); otherwise returns the dict
with `total_net_worth` the sum of all balances and `type_breakdown` the
per-type group sums. -/
def calculate_net_worth (db : DB) : NetWorth :=
  match db.accounts with
  | none => .scalar 0
  | some rows =>
    if rows.isEmpty then .scalar 0
    else .table ((rows.map Account.balance).sum) (group_sum rows)

/-- The transaction-affecting requests claim C1 quantifies over. -/
inductive Op where
  | addTx : TxPayload → Op
  | delTx : Nat → Op
  | addRec : RecPayload → Op
deriving Repr

/-- One request against the store: on success the new persisted state, on a
raised exception the old state (every exception in these code paths is
raised before any `to_csv` write of the affected collections). -/
def applyOp (db : DB) (op : Op) : DB :=
  match op with
  | .addTx p =>
    match add_transaction db p with
    | .ok (_, _, db') => db'
    | .error _ => db
  | .delTx i =>
    match delete_transaction db i with
    | .ok (_, _, db') => db'
    | .error _ => db
  | .addRec p =>
    match add_recurring_transaction db p with
    | .ok (_, _, db') => db'
    | .error _ => db

/-- A sequence of requests applied in order. -/
def applyOps (db : DB) (ops : List Op) : DB :=
  ops.foldl applyOp db

/-- Sum of the stored signed amounts of the transactions on account
`aname`. -/
def txAmountSum (ts : List Transaction) (aname : String) : ℚ :=
  ((ts.filter (fun t => t.account == aname)).map Transaction.amount).sum

/-- The spec's balance invariant: every account's balance is its initial
balance plus the sum of the signed amounts of the live transactions on
it. -/
def balanceInv (db : DB) : Prop :=
  ∀ a ∈ rowsOf db.accounts,
    a.balance = a.initial_balance + txAmountSum (rowsOf db.transactions) a.name

/-- The spec's per-collection id-uniqueness invariant, for the transactions
collection. -/
def txIdsNodup (db : DB) : Prop :=
  ((rowsOf db.transactions).map Transaction.id).Nodup

/-- The data-model invariant of the ledger: the balance equation together
with id uniqueness of the live transactions. -/
def ledgerInv (db : DB) : Prop :=
  balanceInv db ∧ txIdsNodup db

/-- `true` iff the call returned instead of raising. -/
def exceptOk (e : Except Err α) : Bool :=
  match e with
  | .ok _ => true
  | .error _ => false

instance {ε α : Type} [DecidableEq ε] [DecidableEq α] : DecidableEq (Except ε α) :=
  fun x y =>
    match x, y with
    | .error a, .error b =>
      if h : a = b then isTrue (by rw [h]) else
        isFalse (fun hc => h (Except.error.inj hc))
    | .error _, .ok _ => isFalse (fun hc => Except.noConfusion hc)
    | .ok _, .error _ => isFalse (fun hc => Except.noConfusion hc)
    | .ok a, .ok b =>
      if h : a = b then isTrue (by rw [h]) else
        isFalse (fun hc => h (Except.ok.inj hc))

instance (db : DB) : Decidable (balanceInv db) := by
  unfold balanceInv; infer_instance

instance (db : DB) : Decidable (txIdsNodup db) := by
  unfold txIdsNodup; infer_instance

instance (db : DB) : Decidable (ledgerInv db) := by
  unfold ledgerInv; infer_instance

/-! Concrete sample data, used by the witness and counterexample theorems.
They realise the spec's walkthrough scenario: one bank, one account with
initial balance 100, one category, one Income template. -/

def sampleBank : Bank :=
  { id := 1, name := "Chase", country := "US" }

def sampleCat : Category :=
  { id := 1, name := "Food" }

def sampleAcc : Account :=
  { id := 1, name := "Checking", bank := "Chase", account_type := "Savings",
    initial_balance := 100, balance := 100 }

def sampleTemplate : Template :=
  { id := 1, name := "Rent", transaction_type := "Income", amount := 5,
    start_date := none, end_date := none, frequency := "Monthly",
    category := "Food", account := some "Checking" }

/-- A database where every collection file is still missing. -/
def emptyDB : DB :=
  { banks := none, accounts := none, categories := none,
    transactions := none, recurring := none }

/-- A populated database: one bank, one account, one category, one
recurring template, no transactions yet. -/
def dbMain : DB :=
  { banks := some [sampleBank], accounts := some [sampleAcc],
    categories := some [sampleCat], transactions := none,
    recurring := some [sampleTemplate] }

/-- The spec scenario's expense payload. -/
def pLunch : TxPayload :=
  { date := "2024-01-01", name := "Lunch", amount := 20, category := "Food",
    account := "Checking", transaction_type := "Expense" }

/-! ### Helper lemmas about the embedded primitives -/

theorem validate_value_cases (table : Option (List α)) (nameOf : α → String)
    (v : String) :
    validate_value table nameOf v = .ok () ∨
      validate_value table nameOf v = .error .valueError := by
  unfold validate_value
  cases table with
  | none => exact Or.inr rfl
  | some rows =>
    by_cases h : v ∈ rows.map nameOf
    · exact Or.inl (by simp [h])
    · exact Or.inr (by simp [h])

theorem validate_value_ok (table : Option (List α)) (nameOf : α → String)
    (v : String) (h : validate_value table nameOf v = .ok ()) :
    ∃ rows, table = some rows ∧ v ∈ rows.map nameOf := by
  unfold validate_value at h
  cases table with
  | none => exact absurd h (by simp)
  | some rows =>
    refine ⟨rows, rfl, ?_⟩
    by_cases hm : v ∈ rows.map nameOf
    · exact hm
    · simp [hm] at h

theorem mem_le_maxId (idOf : α → Nat) (rows : List α) (r : α) (hr : r ∈ rows) :
    idOf r ≤ maxId idOf rows := by
  induction rows with
  | nil => cases hr
  | cons x xs ih =>
    have hstep : maxId idOf (x :: xs) = max (idOf x) (maxId idOf xs) := rfl
    rcases List.mem_cons.mp hr with hr | hr
    · rw [hstep, hr]; exact le_max_left _ _
    · rw [hstep]; exact le_trans (ih hr) (le_max_right _ _)

theorem next_id_gt (table : Option (List α)) (idOf : α → Nat) (r : α)
    (hr : r ∈ rowsOf table) : idOf r < next_id table idOf := by
  cases table with
  | none => cases hr
  | some rows =>
    have hne : ¬ rows.isEmpty := by
      cases rows with
      | nil => cases hr
      | cons x xs => simp [List.isEmpty]
    have : next_id (some rows) idOf = maxId idOf rows + 1 := by
      unfold next_id; simp [hne]
    rw [this]
    exact Nat.lt_succ_of_le (mem_le_maxId idOf rows r hr)

theorem next_id_not_mem (table : Option (List α)) (idOf : α → Nat) :
    next_id table idOf ∉ (rowsOf table).map idOf := by
  intro hmem
  rcases List.mem_map.mp hmem with ⟨r, hr, hid⟩
  exact absurd hid (Nat.ne_of_gt (next_id_gt table idOf r hr)).symm

theorem find?_mem_map (rows : List α) (f : α → String) (v : String)
    (h : v ∈ rows.map f) :
    ∃ a, rows.find? (fun x => f x == v) = some a ∧ f a = v := by
  induction rows with
  | nil => cases h
  | cons x xs ih =>
    by_cases hx : f x = v
    · exact ⟨x, by simp [List.find?, hx], hx⟩
    · have h' : v ∈ xs.map f := by
        rcases List.mem_map.mp h with ⟨a, ha, hav⟩
        rcases List.mem_cons.mp ha with ha | ha
        · exact absurd (ha ▸ hav) hx
        · exact List.mem_map.mpr ⟨a, ha, hav⟩
      rcases ih h' with ⟨a, hfind, hav⟩
      have hbx : (f x == v) = false := by
        simp only [beq_eq_false_iff_ne, ne_eq]; exact hx
      exact ⟨a, by simp [List.find?, hbx, hfind], hav⟩

theorem txAmountSum_nil (n : String) : txAmountSum [] n = 0 := rfl

theorem txAmountSum_cons (x : Transaction) (ts : List Transaction) (n : String) :
    txAmountSum (x :: ts) n
      = (if x.account == n then x.amount else 0) + txAmountSum ts n := by
  unfold txAmountSum
  cases hb : (x.account == n) <;> simp [List.filter, hb]

theorem txAmountSum_append1 (ts : List Transaction) (t : Transaction) (n : String) :
    txAmountSum (ts ++ [t]) n
      = txAmountSum ts n + (if t.account == n then t.amount else 0) := by
  unfold txAmountSum
  rw [List.filter_append, List.map_append, List.sum_append]
  cases hb : (t.account == n) <;> simp [List.filter, hb]

theorem txAmountSum_filter_of_find? (ts : List Transaction) (i : Nat)
    (t : Transaction) (hfind : ts.find? (fun x => x.id == i) = some t)
    (hnd : (ts.map Transaction.id).Nodup) (n : String) :
    txAmountSum (ts.filter (fun x => x.id != i)) n
      = txAmountSum ts n - (if t.account == n then t.amount else 0) := by
  induction ts with
  | nil => simp [List.find?] at hfind
  | cons x xs ih =>
    cases hx : (x.id == i) with
    | true =>
      have hxi : x.id = i := by simpa using hx
      have hxt : x = t := by
        have := hfind
        simp only [List.find?, hx] at this
        exact Option.some.inj this
      have hxs : ∀ y ∈ xs, (y.id != i) = true := by
        intro y hy
        have hne : x.id ∉ xs.map Transaction.id := (List.nodup_cons.mp (by simpa using hnd)).1
        have : y.id ≠ i := by
          intro hyi
          exact hne (hxi ▸ hyi ▸ List.mem_map.mpr ⟨y, hy, rfl⟩)
        simpa using this
      have hfx : (x.id != i) = false := by simp [hxi]
      rw [List.filter, hfx, List.filter_eq_self.mpr hxs, txAmountSum_cons, hxt]
      ring
    | false =>
      have hfind' : xs.find? (fun y => y.id == i) = some t := by
        have := hfind
        simpa only [List.find?, hx] using this
      have hnd' : (xs.map Transaction.id).Nodup :=
        (List.nodup_cons.mp (by simpa using hnd)).2
      have hx' : (x.id != i) = true := by simp [bne, hx]
      rw [List.filter_cons, if_pos hx']
      rw [txAmountSum_cons, txAmountSum_cons, ih hfind' hnd']
      ring

theorem update_account_balance_ok_spec (db : DB) (nm : String) (amt : ℚ)
    (bal : ℚ) (db' : DB)
    (h : update_account_balance db nm amt = .ok (bal, db')) :
    ∃ rows a, db.accounts = some rows ∧
      rows.find? (fun x => x.name == nm) = some a ∧
      bal = a.balance + amt ∧
      db' = { db with accounts := some (rows.map (fun b =>
        if b.name == nm then { b with balance := b.balance + amt } else b)) } := by
  simp only [update_account_balance] at h
  split at h
  · exact Except.noConfusion h
  · split at h
    · exact Except.noConfusion h
    · rename_i rows heq o a hfind
      have h' := Except.ok.inj h
      exact ⟨rows, a, heq, hfind, (congrArg Prod.fst h').symm,
        (congrArg Prod.snd h').symm⟩

theorem add_transaction_ok_spec (db : DB) (p : TxPayload) (tx : Transaction)
    (bal : ℚ) (db' : DB) (h : add_transaction db p = .ok (tx, bal, db')) :
    tx = { id := next_id db.transactions Transaction.id, date := p.date,
           name := p.name,
           amount := (if p.transaction_type == "Income" then p.amount else -p.amount),
           category := p.category, account := p.account,
           transaction_type := p.transaction_type } ∧
    0 < p.amount ∧
    p.category ∈ (rowsOf db.categories).map Category.name ∧
    ∃ arows a, db.accounts = some arows ∧
      arows.find? (fun x => x.name == p.account) = some a ∧
      bal = a.balance + tx.amount ∧
      db' = { db with
        accounts := some (arows.map (fun b =>
          if b.name == p.account then { b with balance := b.balance + tx.amount }
          else b)),
        transactions := some (rowsOf db.transactions ++ [tx]) } := by
  simp only [add_transaction, ensure_id_first_column] at h
  split at h
  · exact Except.noConfusion h
  · split at h
    · exact Except.noConfusion h
    · split at h
      · exact Except.noConfusion h
      · split at h
        · exact Except.noConfusion h
        · rename_i s1 cu hcat s2 au hacc hle s3 nb db1 hupd
          cases cu
          have h3 := Except.ok.inj h
          injection h3 with htx hrest
          injection hrest with hbal hdb
          obtain ⟨arows, a, haccs, hfindA, hb, hdb1⟩ :=
            update_account_balance_ok_spec db p.account _ nb db1 hupd
          refine ⟨htx.symm, lt_of_not_le (by simpa using hle), ?_, ?_⟩
          · obtain ⟨crows, hcrows, hcmem⟩ :=
              validate_value_ok db.categories Category.name p.category hcat
            rw [hcrows]
            simpa using hcmem
          · refine ⟨arows, a, haccs, hfindA, ?_, ?_⟩
            · rw [← hbal, hb, ← htx]
            · rw [← hdb, hdb1, ← htx]

theorem delete_transaction_ok_spec (db : DB) (tid : Nat) (t : Transaction)
    (bal : ℚ) (db' : DB) (h : delete_transaction db tid = .ok (t, bal, db')) :
    ∃ rows, db.transactions = some rows ∧
      rows.find? (fun x => x.id == tid) = some t ∧
      ∃ arows a, db.accounts = some arows ∧
        arows.find? (fun x => x.name == t.account) = some a ∧
        bal = a.balance + -t.amount ∧
        db' = { db with
          accounts := some (arows.map (fun b =>
            if b.name == t.account then { b with balance := b.balance + -t.amount }
            else b)),
          transactions := some (rows.filter (fun r => r.id != tid)) } := by
  simp only [delete_transaction] at h
  split at h
  · exact Except.noConfusion h
  · split at h
    · exact Except.noConfusion h
    · split at h
      · exact Except.noConfusion h
      · rename_i rows hrows o1 t0 hfind o2 nb db1 hupd
        have h3 := Except.ok.inj h
        injection h3 with ht hrest
        injection hrest with hbal hdb
        obtain ⟨arows, a, haccs, hfindA, hb, hdb1⟩ :=
          update_account_balance_ok_spec db t0.account _ nb db1 hupd
        subst ht
        refine ⟨rows, hrows, hfind, arows, a, haccs, hfindA,
          hbal.symm.trans hb, ?_⟩
        rw [← hdb, hdb1]

theorem rowsOf_some (l : List α) : rowsOf (some l) = l := rfl

theorem rowsOf_none : rowsOf (none : Option (List α)) = [] := rfl

theorem ledgerInv_preserved_addTx (db : DB) (p : TxPayload) (h : ledgerInv db) :
    ledgerInv (applyOp db (Op.addTx p)) := by
  simp only [applyOp]
  cases hres : add_transaction db p with
  | error e => exact h
  | ok res =>
    obtain ⟨tx, bal, db'⟩ := res
    obtain ⟨htx, hpos, hcat, arows, a, haccs, hfindA, hbal, hdb'⟩ :=
      add_transaction_ok_spec db p tx bal db' hres
    have htacc : tx.account = p.account := by rw [htx]
    have htid : tx.id = next_id db.transactions Transaction.id := by rw [htx]
    have hacc' : db'.accounts = some (arows.map (fun b =>
        if b.name == p.account then { b with balance := b.balance + tx.amount }
        else b)) := by rw [hdb']
    have htxs' : db'.transactions = some (rowsOf db.transactions ++ [tx]) := by
      rw [hdb']
    refine ⟨?_, ?_⟩
    · intro b' hb'
      rw [hacc', rowsOf_some] at hb'
      obtain ⟨b, hbmem, rfl⟩ := List.mem_map.mp hb'
      have hOld : b.balance
          = b.initial_balance + txAmountSum (rowsOf db.transactions) b.name :=
        h.1 b (by rw [haccs, rowsOf_some]; exact hbmem)
      rw [htxs', rowsOf_some, txAmountSum_append1]
      by_cases hbn : b.name = p.account
      · have hb1 : (b.name == p.account) = true := by simp [hbn]
        rw [hb1]
        show b.balance + tx.amount
          = b.initial_balance + (txAmountSum (rowsOf db.transactions) b.name
              + if tx.account == b.name then tx.amount else 0)
        have hb2 : (tx.account == b.name) = true := by simp [htacc, hbn]
        rw [hb2, if_pos rfl, hOld]
        ring
      · have hb1 : (b.name == p.account) = false := by simp [hbn]
        rw [hb1]
        show b.balance
          = b.initial_balance + (txAmountSum (rowsOf db.transactions) b.name
              + if tx.account == b.name then tx.amount else 0)
        have hb2 : (tx.account == b.name) = false := by
          simp [htacc]
          exact fun hc => hbn hc.symm
        rw [hb2]
        simp [hOld]
    · unfold txIdsNodup
      rw [htxs', rowsOf_some, List.map_append, List.nodup_append]
      refine ⟨?_, List.nodup_singleton _, ?_⟩
      · have h2 := h.2; unfold txIdsNodup at h2; exact h2
      · intro x hx hx2
        simp only [List.map_cons, List.map_nil, List.mem_singleton] at hx2
        subst hx2
        rw [htid] at hx
        exact next_id_not_mem db.transactions Transaction.id hx

theorem ledgerInv_preserved_delTx (db : DB) (i : Nat) (h : ledgerInv db) :
    ledgerInv (applyOp db (Op.delTx i)) := by
  simp only [applyOp]
  cases hres : delete_transaction db i with
  | error e => exact h
  | ok res =>
    obtain ⟨t, bal, db'⟩ := res
    obtain ⟨rows, hrows, hfind, arows, a, haccs, hfindA, hbal, hdb'⟩ :=
      delete_transaction_ok_spec db i t bal db' hres
    have hacc' : db'.accounts = some (arows.map (fun b =>
        if b.name == t.account then { b with balance := b.balance + -t.amount }
        else b)) := by rw [hdb']
    have htxs' : db'.transactions = some (rows.filter (fun r => r.id != i)) := by
      rw [hdb']
    have hnd : (rows.map Transaction.id).Nodup := by
      have h2 := h.2; unfold txIdsNodup at h2
      rw [hrows, rowsOf_some] at h2; exact h2
    refine ⟨?_, ?_⟩
    · intro b' hb'
      rw [hacc', rowsOf_some] at hb'
      obtain ⟨b, hbmem, rfl⟩ := List.mem_map.mp hb'
      have hOld : b.balance
          = b.initial_balance + txAmountSum (rowsOf db.transactions) b.name :=
        h.1 b (by rw [haccs, rowsOf_some]; exact hbmem)
      rw [hrows, rowsOf_some] at hOld
      rw [htxs', rowsOf_some, txAmountSum_filter_of_find? rows i t hfind hnd]
      by_cases hbn : b.name = t.account
      · have hb1 : (b.name == t.account) = true := by simp [hbn]
        rw [hb1]
        show b.balance + -t.amount
          = b.initial_balance + (txAmountSum rows b.name
              - if t.account == b.name then t.amount else 0)
        have hb2 : (t.account == b.name) = true := by simp [hbn]
        rw [hb2, if_pos rfl, hOld]
        ring
      · have hb1 : (b.name == t.account) = false := by simp [hbn]
        rw [hb1]
        show b.balance
          = b.initial_balance + (txAmountSum rows b.name
              - if t.account == b.name then t.amount else 0)
        have hb2 : (t.account == b.name) = false := by
          simp
          exact fun hc => hbn hc.symm
        rw [hb2]
        simp [hOld]
    · unfold txIdsNodup
      rw [htxs', rowsOf_some]
      exact List.Nodup.sublist
        (List.Sublist.map Transaction.id (List.filter_sublist rows)) hnd

theorem ledgerInv_preserved_addRec (db : DB) (p : RecPayload) (h : ledgerInv db) :
    ledgerInv (applyOp db (Op.addRec p)) :=
  h

theorem ledgerInv_applyOps (db : DB) (ops : List Op) (h : ledgerInv db) :
    ledgerInv (applyOps db ops) := by
  induction ops generalizing db with
  | nil => exact h
  | cons op ops ih =>
    show ledgerInv (applyOps (applyOp db op) ops)
    apply ih
    cases op with
    | addTx p => exact ledgerInv_preserved_addTx db p h
    | delTx i => exact ledgerInv_preserved_delTx db i h
    | addRec p => exact ledgerInv_preserved_addRec db p h

/-- C1: starting from a state satisfying the ledger invariant (the spec's
balance equation together with its per-collection id-uniqueness invariant
for transactions), after any sequence of add-transaction,
delete-transaction and materialize-from-template requests, every account's
balance equals its initial balance plus the sum of the stored signed
amounts of the live transactions whose account field equals the account's
name. -/
theorem c1_balance_invariant (db : DB) (ops : List Op) (h : ledgerInv db) :
    balanceInv (applyOps db ops) :=
  (ledgerInv_applyOps db ops h).1

/-- Witness for C1 at the concrete sample state and a concrete
add-then-delete request sequence. -/
theorem c1_balance_invariant_witness :
    ledgerInv dbMain ∧
      balanceInv (applyOps dbMain [Op.addTx pLunch, Op.delTx 1]) := by
  have hinv : ledgerInv dbMain := by
    constructor
    · intro a ha
      simp only [dbMain, rowsOf_some, List.mem_singleton] at ha
      subst ha
      simp [sampleAcc, txAmountSum, dbMain, rowsOf]
    · simp [txIdsNodup, dbMain, rowsOf]
  exact ⟨hinv, c1_balance_invariant dbMain [Op.addTx pLunch, Op.delTx 1] hinv⟩

theorem find?_append_none (l1 l2 : List α) (p : α → Bool) (h : l1.find? p = none) :
    (l1 ++ l2).find? p = l2.find? p := by
  rw [List.find?_append, h, Option.none_or]

theorem find?_map_pres (f : α → α) (p : α → Bool) (hf : ∀ b, p (f b) = p b)
    (l : List α) : (l.map f).find? p = (l.find? p).map f := by
  induction l with
  | nil => rfl
  | cons x xs ih =>
    cases hx : p x with
    | true => simp [List.find?, hf, hx]
    | false => simp [List.find?, hf, hx, ih]

theorem upd_roundtrip (nm : String) (amt : ℚ) (l : List Account) :
    (l.map (fun b =>
        if b.name == nm then { b with balance := b.balance + amt } else b)).map
      (fun b =>
        if b.name == nm then { b with balance := b.balance + -amt } else b) = l := by
  induction l with
  | nil => rfl
  | cons x xs ih =>
    rw [List.map_cons, List.map_cons, ih]
    cases hb : (x.name == nm) with
    | true =>
      have h1 : x.balance + amt + -amt = x.balance := by ring
      simp [hb, h1]
    | false => simp [hb]

/-- C2: whenever an add-transaction request succeeds, deleting the
transaction it created, by the id the add assigned, succeeds and restores
the accounts collection — in particular the referenced account's
balance — to its exact pre-add state. -/
theorem c2_add_delete_roundtrip (db : DB) (p : TxPayload) (tx : Transaction)
    (bal : ℚ) (db1 : DB) (h : add_transaction db p = .ok (tx, bal, db1)) :
    ∃ bal2 db2, delete_transaction db1 tx.id = .ok (tx, bal2, db2) ∧
      db2.accounts = db.accounts := by
  obtain ⟨htx, hpos, hcat, arows, a, haccs, hfindA, hbal, hdb1⟩ :=
    add_transaction_ok_spec db p tx bal db1 h
  have htacc : tx.account = p.account := by rw [htx]
  have htid : tx.id = next_id db.transactions Transaction.id := by rw [htx]
  have e1 : db1.transactions = some (rowsOf db.transactions ++ [tx]) := by
    rw [hdb1]
  have eacc : db1.accounts = some (arows.map (fun b =>
      if b.name == p.account then { b with balance := b.balance + tx.amount }
      else b)) := by rw [hdb1]
  have hfresh : ∀ r ∈ rowsOf db.transactions, r.id ≠ tx.id := by
    intro r hr
    rw [htid]
    exact Nat.ne_of_lt (next_id_gt db.transactions Transaction.id r hr)
  have e2 : (rowsOf db.transactions ++ [tx]).find? (fun t => t.id == tx.id)
      = some tx := by
    rw [find?_append_none]
    · simp [List.find?]
    · rw [List.find?_eq_none]
      intro r hr
      simpa using hfresh r hr
  have e3 : (rowsOf db.transactions ++ [tx]).filter (fun r => r.id != tx.id)
      = rowsOf db.transactions := by
    rw [List.filter_append]
    have hl : (rowsOf db.transactions).filter (fun r => r.id != tx.id)
        = rowsOf db.transactions := by
      rw [List.filter_eq_self]
      intro r hr
      simpa using hfresh r hr
    have hr : ([tx].filter (fun r => r.id != tx.id)) = [] := by
      simp [List.filter]
    rw [hl, hr, List.append_nil]
  have hA : (a.name == p.account) = true := by
    have h0 := List.find?_some hfindA
    simpa using h0
  have e4 : (arows.map (fun b =>
      if b.name == p.account then { b with balance := b.balance + tx.amount }
      else b)).find? (fun x => x.name == tx.account)
      = some { a with balance := a.balance + tx.amount } := by
    rw [htacc, find?_map_pres]
    · rw [hfindA]
      have hA' : a.name = p.account := by simpa using hA
      simp [hA']
    · intro b
      cases hb : (b.name == p.account) <;> simp [hb]
  have e5 : (arows.map (fun b =>
      if b.name == p.account then { b with balance := b.balance + tx.amount }
      else b)).map (fun b =>
        if b.name == tx.account then { b with balance := b.balance + -tx.amount }
        else b) = arows := by
    rw [htacc]
    exact upd_roundtrip p.account tx.amount arows
  have hdel : delete_transaction db1 tx.id
      = .ok (tx, a.balance + tx.amount + -tx.amount,
             { db1 with accounts := some arows,
                        transactions := some (rowsOf db.transactions) }) := by
    simp only [delete_transaction, e1, e2, update_account_balance, eacc, e4, e3, e5]
  exact ⟨_, _, hdel, haccs.symm⟩

/-- The transaction row the spec-scenario add creates. -/
def txLunch : Transaction :=
  { id := 1, date := "2024-01-01", name := "Lunch", amount := -20,
    category := "Food", account := "Checking", transaction_type := "Expense" }

/-- `dbMain` after adding `pLunch`. -/
def dbAfterAdd : DB :=
  { dbMain with accounts := some [{ sampleAcc with balance := 80 }],
                transactions := some [txLunch] }

/-- `dbAfterAdd` after deleting transaction 1 again. -/
def dbAfterDel : DB :=
  { dbMain with transactions := some [] }

theorem add_pLunch_eval : add_transaction dbMain pLunch
    = .ok (txLunch, 80, dbAfterAdd) := by
  simp [add_transaction, update_account_balance, validate_value, dbMain, pLunch,
    sampleAcc, sampleCat, sampleBank, sampleTemplate, next_id, maxId, rowsOf,
    ensure_id_first_column, txLunch, dbAfterAdd]
  norm_num

/-- Witness for C2: the concrete spec-scenario add followed by the delete of
the created row restores the account to balance 100. -/
theorem c2_add_delete_roundtrip_witness :
    ∃ bal2 db2, delete_transaction dbAfterAdd txLunch.id
        = .ok (txLunch, bal2, db2) ∧ db2.accounts = dbMain.accounts :=
  c2_add_delete_roundtrip dbMain pLunch txLunch 80 dbAfterAdd add_pLunch_eval

theorem next_id_of_empty (table : Option (List α)) (idOf : α → Nat)
    (h : rowsOf table = []) : next_id table idOf = 1 := by
  cases table with
  | none => rfl
  | some rows =>
    rw [rowsOf_some] at h
    subst h
    rfl

theorem nodup_append_fresh (idOf : α → Nat) (rows : List α) (r : α)
    (hfresh : idOf r ∉ rows.map idOf) (hnd : (rows.map idOf).Nodup) :
    ((rows ++ [r]).map idOf).Nodup := by
  rw [List.map_append, List.nodup_append]
  refine ⟨hnd, List.nodup_singleton _, ?_⟩
  intro x hx hx2
  simp only [List.map_cons, List.map_nil, List.mem_singleton] at hx2
  subst hx2
  exact hfresh hx

/-- The per-collection id-assignment contract of claim C5: the new row's id
is `next_id` of the collection before the create (`max(existing)+1`, 1 on
an empty or missing collection), strictly greater than every live id and
therefore unused among the live rows, and id uniqueness of the collection
is preserved by the create. -/
def freshAssign (table : Option (List α)) (idOf : α → Nat) (newId : Nat)
    (table' : Option (List α)) : Prop :=
  newId = next_id table idOf ∧
  (rowsOf table = [] → newId = 1) ∧
  (∀ r ∈ rowsOf table, idOf r < newId) ∧
  newId ∉ (rowsOf table).map idOf ∧
  (((rowsOf table).map idOf).Nodup → ((rowsOf table').map idOf).Nodup)

theorem freshAssign_of_spec (table : Option (List α)) (idOf : α → Nat)
    (r : α) (table' : Option (List α)) (hid : idOf r = next_id table idOf)
    (htab : table' = some (rowsOf table ++ [r])) :
    freshAssign table idOf (idOf r) table' := by
  refine ⟨hid, ?_, ?_, ?_, ?_⟩
  · intro he
    rw [hid]
    exact next_id_of_empty table idOf he
  · intro x hx
    rw [hid]
    exact next_id_gt table idOf x hx
  · rw [hid]
    exact next_id_not_mem table idOf
  · intro hnd
    rw [htab, rowsOf_some]
    refine nodup_append_fresh idOf (rowsOf table) r ?_ hnd
    rw [hid]
    exact next_id_not_mem table idOf

theorem add_bank_ok_id_spec (db : DB) (p : BankPayload) (b : Bank) (db' : DB)
    (h : add_bank db p = .ok (b, db')) :
    b.id = next_id db.banks Bank.id ∧
    db'.banks = some (rowsOf db.banks ++ [b]) := by
  simp only [add_bank, ensure_id_first_column] at h
  split at h
  · exact Except.noConfusion h
  · have h3 := Except.ok.inj h
    injection h3 with h1 h2
    constructor
    · rw [← h1]
    · rw [← h2, ← h1]

theorem add_category_ok_id_spec (db : DB) (nm : String) (c : Category)
    (db' : DB) (h : add_category db nm = .ok (c, db')) :
    c.id = next_id db.categories Category.id ∧
    db'.categories = some (rowsOf db.categories ++ [c]) := by
  simp only [add_category, ensure_id_first_column] at h
  split at h
  · exact Except.noConfusion h
  · have h3 := Except.ok.inj h
    injection h3 with h1 h2
    constructor
    · rw [← h1]
    · rw [← h2, ← h1]

theorem add_account_ok_id_spec (db : DB) (p : AccountPayload) (acc : Account)
    (db' : DB) (h : add_account db p = .ok (acc, db')) :
    acc.id = next_id db.accounts Account.id ∧
    db'.accounts = some (rowsOf db.accounts ++ [acc]) := by
  simp only [add_account, ensure_id_first_column] at h
  split at h
  · exact Except.noConfusion h
  · split at h
    · exact Except.noConfusion h
    · have h3 := Except.ok.inj h
      injection h3 with h1 h2
      constructor
      · rw [← h1]
      · rw [← h2, ← h1]

theorem create_recurring_template_ok_id_spec (db : DB) (p : TemplatePayload)
    (t : Template) (db' : DB)
    (h : create_recurring_template db p = .ok (t, db')) :
    t.id = next_id db.recurring Template.id ∧
    db'.recurring = some (rowsOf db.recurring ++ [t]) := by
  simp only [create_recurring_template, ensure_id_first_column] at h
  split at h
  · exact Except.noConfusion h
  · split at h
    · exact Except.noConfusion h
    · split at h
      · exact Except.noConfusion h
      · split at h
        · exact Except.noConfusion h
        · have h3 := Except.ok.inj h
          injection h3 with h1 h2
          constructor
          · rw [← h1]
          · rw [← h2, ← h1]

/-- C5 (amended): in every collection — banks, accounts, categories,
transactions, recurring templates — every successful create assigns the id
`max(existing ids) + 1`, or 1 when the collection is empty or its file is
missing; the assigned id is strictly greater than every live id, hence
unused among the live rows, and id uniqueness of the collection is
preserved.  (The original claim's never-reuse part is refuted by
`c5_id_reuse_counterexample`.) -/
theorem c5_id_assignment (db : DB) (pb : BankPayload) (pa : AccountPayload)
    (cname : String) (pt : TxPayload) (pr : TemplatePayload) :
    (∀ b db', add_bank db pb = .ok (b, db') →
      freshAssign db.banks Bank.id b.id db'.banks) ∧
    (∀ acc db', add_account db pa = .ok (acc, db') →
      freshAssign db.accounts Account.id acc.id db'.accounts) ∧
    (∀ c db', add_category db cname = .ok (c, db') →
      freshAssign db.categories Category.id c.id db'.categories) ∧
    (∀ tx bal db', add_transaction db pt = .ok (tx, bal, db') →
      freshAssign db.transactions Transaction.id tx.id db'.transactions) ∧
    (∀ t db', create_recurring_template db pr = .ok (t, db') →
      freshAssign db.recurring Template.id t.id db'.recurring) := by
  refine ⟨?_, ?_, ?_, ?_, ?_⟩
  · intro b db' h
    obtain ⟨h1, h2⟩ := add_bank_ok_id_spec db pb b db' h
    exact freshAssign_of_spec db.banks Bank.id b db'.banks h1 h2
  · intro acc db' h
    obtain ⟨h1, h2⟩ := add_account_ok_id_spec db pa acc db' h
    exact freshAssign_of_spec db.accounts Account.id acc db'.accounts h1 h2
  · intro c db' h
    obtain ⟨h1, h2⟩ := add_category_ok_id_spec db cname c db' h
    exact freshAssign_of_spec db.categories Category.id c db'.categories h1 h2
  · intro tx bal db' h
    obtain ⟨htx, hpos, hcat, arows, a, haccs, hfindA, hbal, hdb'⟩ :=
      add_transaction_ok_spec db pt tx bal db' h
    have h1 : tx.id = next_id db.transactions Transaction.id := by rw [htx]
    have h2 : db'.transactions = some (rowsOf db.transactions ++ [tx]) := by
      rw [hdb']
    exact freshAssign_of_spec db.transactions Transaction.id tx
      db'.transactions h1 h2
  · intro t db' h
    obtain ⟨h1, h2⟩ := create_recurring_template_ok_id_spec db pr t db' h
    exact freshAssign_of_spec db.recurring Template.id t db'.recurring h1 h2

/-- Counterexample for C5 as stated: ids of deleted rows are reused.  From
`dbMain`, adding `pLunch` creates row id 1; deleting row 1 succeeds; adding
`pLunch` again assigns the same id 1 — the deleted row's id. -/
theorem c5_id_reuse_counterexample :
    add_transaction dbMain pLunch = .ok (txLunch, 80, dbAfterAdd) ∧
    delete_transaction dbAfterAdd txLunch.id = .ok (txLunch, 100, dbAfterDel) ∧
    (add_transaction dbAfterDel pLunch).map (fun r => r.1.id)
      = .ok txLunch.id := by
  refine ⟨add_pLunch_eval, ?_, ?_⟩
  · simp [delete_transaction, update_account_balance, dbAfterAdd, dbAfterDel,
      dbMain, txLunch, sampleAcc, sampleCat, sampleBank, sampleTemplate,
      rowsOf, List.find?, List.filter]
    norm_num
  · simp [add_transaction, update_account_balance, validate_value, dbAfterDel,
      dbMain, pLunch, sampleAcc, sampleCat, sampleBank, sampleTemplate,
      next_id, maxId, rowsOf, ensure_id_first_column, txLunch, Except.map]
    norm_num

/-- C7: an add-transaction request whose amount is not positive always
raises (the validations and the amount check run before any write), and the
state is unchanged. -/
theorem c7_nonpositive_amount_rejected (db : DB) (p : TxPayload)
    (h : p.amount ≤ 0) :
    add_transaction db p = .error Err.valueError ∧
      applyOp db (Op.addTx p) = db := by
  have hfail : add_transaction db p = .error Err.valueError := by
    unfold add_transaction
    rcases validate_value_cases db.categories Category.name p.category
      with h1 | h1
    · rw [h1]
      rcases validate_value_cases db.accounts Account.name p.account
        with h2 | h2
      · rw [h2, if_pos h]
      · rw [h2]
    · rw [h1]
  exact ⟨hfail, by simp only [applyOp, hfail]⟩

/-- The spec-scenario payload with a zero amount. -/
def pZero : TxPayload := { pLunch with amount := 0 }

/-- Witness for C7 at a concrete zero-amount request. -/
theorem c7_nonpositive_amount_rejected_witness :
    add_transaction dbMain pZero = .error Err.valueError ∧
      applyOp dbMain (Op.addTx pZero) = dbMain :=
  c7_nonpositive_amount_rejected dbMain pZero (by norm_num [pZero, pLunch])

/-- C10: deleting a stored transaction whose account name no longer
resolves raises (the balance reversal fails before transactions.csv is
rewritten) and leaves the state — in particular the transactions
collection — unchanged. -/
theorem c10_delete_orphan_transaction (db : DB) (rows : List Transaction)
    (i : Nat) (t : Transaction) (hrows : db.transactions = some rows)
    (hfind : rows.find? (fun x => x.id == i) = some t)
    (hacc : t.account ∉ (rowsOf db.accounts).map Account.name) :
    delete_transaction db i = .error Err.valueError ∧
      applyOp db (Op.delTx i) = db := by
  have hfail : delete_transaction db i = .error Err.valueError := by
    cases hdba : db.accounts with
    | none =>
      simp only [delete_transaction, hrows, hfind, update_account_balance, hdba]
    | some arows =>
      have hfn : arows.find? (fun x => x.name == t.account) = none := by
        rw [List.find?_eq_none]
        intro x hx hpx
        have hxe : x.name = t.account := by simpa using hpx
        exact hacc (by
          rw [hdba, rowsOf_some]
          exact List.mem_map.mpr ⟨x, hx, hxe⟩)
      simp only [delete_transaction, hrows, hfind, update_account_balance,
        hdba, hfn]
  exact ⟨hfail, by simp only [applyOp, hfail]⟩

/-- A stored transaction whose account was deleted afterwards. -/
def txGhost : Transaction :=
  { id := 1, date := "2024-01-01", name := "Old", amount := -5,
    category := "Food", account := "Ghost", transaction_type := "Expense" }

/-- A state holding `txGhost` while no account named Ghost exists. -/
def dbGhost : DB :=
  { emptyDB with categories := some [sampleCat], accounts := some [],
                 transactions := some [txGhost] }

/-- Witness for C10 at the concrete orphaned transaction. -/
theorem c10_delete_orphan_transaction_witness :
    delete_transaction dbGhost 1 = .error Err.valueError ∧
      applyOp dbGhost (Op.delTx 1) = dbGhost :=
  c10_delete_orphan_transaction dbGhost [txGhost] 1 txGhost rfl
    (by simp [List.find?, txGhost]) (by simp [dbGhost, rowsOf])

/-- The no-dangling-references property of claim C4: every stored
foreign-name reference (an account's bank, a transaction's category and
account, a template's category and its truthy optional account) resolves
in the referenced collection. -/
def refsOK (db : DB) : Prop :=
  (∀ a ∈ rowsOf db.accounts, a.bank ∈ (rowsOf db.banks).map Bank.name) ∧
  (∀ t ∈ rowsOf db.transactions,
    t.category ∈ (rowsOf db.categories).map Category.name ∧
    t.account ∈ (rowsOf db.accounts).map Account.name) ∧
  (∀ t ∈ rowsOf db.recurring,
    t.category ∈ (rowsOf db.categories).map Category.name ∧
    ∀ s, t.account = some s → s.isEmpty = false →
      s ∈ (rowsOf db.accounts).map Account.name)

theorem add_account_ok_spec (db : DB) (p : AccountPayload) (acc : Account)
    (db' : DB) (h : add_account db p = .ok (acc, db')) :
    p.bank ∈ (rowsOf db.banks).map Bank.name := by
  simp only [add_account] at h
  split at h
  · exact Except.noConfusion h
  · rename_i s u hv
    cases u
    obtain ⟨brows, hbrows, hbmem⟩ :=
      validate_value_ok db.banks Bank.name p.bank hv
    rw [hbrows, rowsOf_some]
    exact hbmem

theorem create_recurring_template_ok_spec (db : DB) (p : TemplatePayload)
    (t : Template) (db' : DB)
    (h : create_recurring_template db p = .ok (t, db')) :
    p.category ∈ (rowsOf db.categories).map Category.name ∧
    ∀ s, p.account = some s → s.isEmpty = false →
      s ∈ (rowsOf db.accounts).map Account.name := by
  simp only [create_recurring_template] at h
  split at h
  · exact Except.noConfusion h
  · split at h
    · exact Except.noConfusion h
    · rename_i s1 cu hcat s2 au hacc
      cases cu
      obtain ⟨crows, hcrows, hcmem⟩ :=
        validate_value_ok db.categories Category.name p.category hcat
      refine ⟨by rw [hcrows, rowsOf_some]; exact hcmem, ?_⟩
      intro s hs hse
      cases au
      rw [hs] at hacc
      simp only [hse, Bool.false_eq_true, if_false] at hacc
      obtain ⟨arows, harows, hamem⟩ :=
        validate_value_ok db.accounts Account.name s hacc
      rw [harows, rowsOf_some]
      exact hamem

/-- C4 (amended): dangling references are never created at the time of a
referencing write — a successful account add resolves its bank, a
successful transaction add resolves its category and account, and a
successful template create resolves its category and its truthy account
override.  (Deletes do not check inbound references: the original claim is
refuted by `c4_dangling_reference_counterexample`.) -/
theorem c4_referencing_writes_validated (db : DB) (pa : AccountPayload)
    (pt : TxPayload) (pr : TemplatePayload) :
    (exceptOk (add_account db pa) = true →
      pa.bank ∈ (rowsOf db.banks).map Bank.name) ∧
    (exceptOk (add_transaction db pt) = true →
      pt.category ∈ (rowsOf db.categories).map Category.name ∧
      pt.account ∈ (rowsOf db.accounts).map Account.name) ∧
    (exceptOk (create_recurring_template db pr) = true →
      pr.category ∈ (rowsOf db.categories).map Category.name ∧
      ∀ s, pr.account = some s → s.isEmpty = false →
        s ∈ (rowsOf db.accounts).map Account.name) := by
  refine ⟨?_, ?_, ?_⟩
  · intro hok
    cases hres : add_account db pa with
    | error e => rw [hres] at hok; exact Bool.noConfusion hok
    | ok r =>
      obtain ⟨acc, db'⟩ := r
      exact add_account_ok_spec db pa acc db' hres
  · intro hok
    cases hres : add_transaction db pt with
    | error e => rw [hres] at hok; exact Bool.noConfusion hok
    | ok r =>
      obtain ⟨tx, bal, db'⟩ := r
      obtain ⟨htx, hpos, hcat, arows, a, haccs, hfindA, hbal, hdb'⟩ :=
        add_transaction_ok_spec db pt tx bal db' hres
      refine ⟨hcat, ?_⟩
      rw [haccs, rowsOf_some]
      exact List.mem_map.mpr ⟨a, List.mem_of_find?_eq_some hfindA,
        by simpa using List.find?_some hfindA⟩
  · intro hok
    cases hres : create_recurring_template db pr with
    | error e => rw [hres] at hok; exact Bool.noConfusion hok
    | ok r =>
      obtain ⟨t, db'⟩ := r
      exact create_recurring_template_ok_spec db pr t db' hres

/-- The bank-add and account-add requests of the C4 counterexample. -/
def pBank : BankPayload := { name := "Chase", country := "US" }

def pAcc : AccountPayload :=
  { name := "Checking", bank := "Chase", account_type := "Savings",
    initial_balance := 100 }

/-- State after adding the bank. -/
def dbB : DB := { emptyDB with banks := some [sampleBank] }

/-- State after adding the bank and the account. -/
def dbBA : DB := { dbB with accounts := some [sampleAcc] }

/-- State after deleting the bank again: the account's `bank` field
dangles. -/
def dbDangling : DB := { dbBA with banks := some [] }

/-- Counterexample for C4 as stated: from the empty store, add a bank, add
an account referencing it, then delete the bank — every step succeeds and
the resulting reachable state contains an account whose `bank` name no
longer resolves. -/
theorem c4_dangling_reference_counterexample :
    add_bank emptyDB pBank = .ok (sampleBank, dbB) ∧
    add_account dbB pAcc = .ok (sampleAcc, dbBA) ∧
    delete_bank dbBA 1 = .ok (sampleBank, dbDangling) ∧
    ¬ refsOK dbDangling := by
  refine ⟨?_, ?_, ?_, ?_⟩
  · simp [add_bank, emptyDB, pBank, sampleBank, dbB, next_id, maxId, rowsOf,
      ensure_id_first_column]
  · simp [add_account, validate_value, dbB, pAcc, sampleBank, sampleAcc,
      dbBA, emptyDB, next_id, maxId, rowsOf, ensure_id_first_column]
  · simp [delete_bank, dbBA, dbB, emptyDB, sampleBank, sampleAcc, dbDangling,
      List.find?, List.filter]
  · intro h
    have := h.1 sampleAcc (by simp [dbDangling, dbBA, dbB, rowsOf])
    simp [dbDangling, dbBA, dbB, emptyDB, sampleAcc, rowsOf] at this

/-- Witness for C4's amended statement: concrete successful writes resolve
their references. -/
theorem c4_referencing_writes_validated_witness :
    ("Chase" : String) ∈ (rowsOf dbB.banks).map Bank.name ∧
    ("Food" : String) ∈ (rowsOf dbMain.categories).map Category.name ∧
    ("Checking" : String) ∈ (rowsOf dbMain.accounts).map Account.name := by
  have h1 := (c4_referencing_writes_validated dbB pAcc pLunch
    { name := "Rent", transaction_type := "Income", amount := 5,
      start_date := none, end_date := none, frequency := "Monthly",
      category := "Food", account := none }).1
  have h2 := (c4_referencing_writes_validated dbMain pAcc pLunch
    { name := "Rent", transaction_type := "Income", amount := 5,
      start_date := none, end_date := none, frequency := "Monthly",
      category := "Food", account := none }).2.1
  have hb : exceptOk (add_account dbB pAcc) = true := by
    simp [exceptOk, add_account, validate_value, dbB, pAcc, sampleBank,
      emptyDB, next_id, maxId, rowsOf, ensure_id_first_column]
  have ht : exceptOk (add_transaction dbMain pLunch) = true := by
    rw [add_pLunch_eval]
    rfl
  exact ⟨h1 hb, (h2 ht).1, (h2 ht).2⟩

theorem lookup_map_pair (v : String → ℚ) (keys : List String) (k : String)
    (hk : k ∈ keys) :
    (keys.map (fun x => (x, v x))).lookup k = some (v k) := by
  induction keys with
  | nil => cases hk
  | cons q qs ih =>
    by_cases hq : k = q
    · subst hq
      simp [List.lookup]
    · have hk' : k ∈ qs := by
        rcases List.mem_cons.mp hk with h | h
        · exact absurd h hq
        · exact h
      have hne : (k == q) = false := by simp [hq]
      simp [List.lookup, hne, ih hk']

theorem lookup_group_sum (rows : List Account) (k : String)
    (hk : k ∈ rows.map Account.account_type) :
    (group_sum rows).lookup k
      = some (((rows.filter (fun a => a.account_type == k)).map
          Account.balance).sum) := by
  unfold group_sum
  exact lookup_map_pair _ _ k (List.mem_dedup.mpr hk)

/-- C6 (amended): with no account rows (missing file or empty frame) the
net-worth computation returns the bare scalar 0.0 — not a zero-total dict
with an empty breakdown; with rows present it returns the dict whose total
is the sum of all balances and whose breakdown maps every account type
occurring among the rows to the sum of the balances of the accounts of
that type. -/
theorem c6_net_worth (db : DB) :
    (rowsOf db.accounts = [] → calculate_net_worth db = .scalar 0) ∧
    (∀ rows, db.accounts = some rows → rows ≠ [] →
      calculate_net_worth db
        = .table ((rows.map Account.balance).sum) (group_sum rows) ∧
      ∀ k, k ∈ rows.map Account.account_type →
        (group_sum rows).lookup k
          = some (((rows.filter (fun a => a.account_type == k)).map
              Account.balance).sum)) := by
  constructor
  · intro hempty
    cases hdb : db.accounts with
    | none => simp [calculate_net_worth, hdb]
    | some rows =>
      have : rows = [] := by rw [hdb, rowsOf_some] at hempty; exact hempty
      subst this
      simp [calculate_net_worth, hdb]
  · intro rows hdb hne
    have hie : rows.isEmpty = false := by
      cases rows with
      | nil => exact absurd rfl hne
      | cons x xs => rfl
    constructor
    · simp [calculate_net_worth, hdb, hie]
    · intro k hk
      exact lookup_group_sum rows k hk

/-- Counterexample for C6 as stated: with no accounts the code returns the
bare float 0.0, not a zero total together with an empty breakdown. -/
theorem c6_zero_shape_counterexample :
    calculate_net_worth emptyDB = NetWorth.scalar 0 ∧
    calculate_net_worth emptyDB ≠ NetWorth.table 0 [] :=
  ⟨rfl, fun h => NetWorth.noConfusion h⟩

/-- Witness for C6's amended statement at the empty store and at the
one-account sample store. -/
theorem c6_net_worth_witness :
    calculate_net_worth emptyDB = NetWorth.scalar 0 ∧
    calculate_net_worth dbMain
      = NetWorth.table (([sampleAcc].map Account.balance).sum)
          (group_sum [sampleAcc]) ∧
    (group_sum [sampleAcc]).lookup "Savings"
      = some ((([sampleAcc].filter
          (fun a => a.account_type == "Savings")).map Account.balance).sum) := by
  have h1 := (c6_net_worth emptyDB).1 rfl
  have h2 := (c6_net_worth dbMain).2 [sampleAcc] rfl (by simp)
  exact ⟨h1, h2.1, h2.2 "Savings" (by simp [sampleAcc])⟩

/-- The materialization request of claim C3: template id 1, no overrides. -/
def recNoOverride : RecPayload :=
  { recurring_transaction_id := 1, date := "2024-02-01", amount := none,
    account := none }

/-- The materialization request of claim C8: amount override 0. -/
def recZeroOverride : RecPayload :=
  { recurring_transaction_id := 1, date := "2024-02-01", amount := some 0,
    account := none }

/-- The materialization request of claim C9. -/
def recPlain : RecPayload :=
  { recurring_transaction_id := 1, date := "2024-03-01", amount := none,
    account := none }

/-- C3 (code bug): in `dbMain` template id 1 resolves and a direct
transaction add of the template's stored fields succeeds, yet
materialization raises `TypeError` on every input — the
`validate_value(..., col_name="id")` call passes a keyword argument that
`validate_value(table, value)` does not accept — so it never constructs the
synthetic payload, never delegates to the transaction add, and never
returns what that add returns. -/
theorem c3_materialize_delegation_bug :
    (1 : Nat) ∈ (rowsOf dbMain.recurring).map Template.id ∧
    add_recurring_transaction dbMain recNoOverride = .error Err.typeError ∧
    exceptOk (add_transaction dbMain
      { date := recNoOverride.date, name := sampleTemplate.name,
        amount := sampleTemplate.amount, category := sampleTemplate.category,
        account := "Checking",
        transaction_type := sampleTemplate.transaction_type }) = true := by
  refine ⟨by simp [dbMain, sampleTemplate, rowsOf], rfl, ?_⟩
  simp [exceptOk, add_transaction, update_account_balance, validate_value,
    dbMain, recNoOverride, sampleTemplate, sampleAcc, sampleCat, sampleBank,
    next_id, maxId, rowsOf, ensure_id_first_column]
  norm_num

/-- C8 (code bug): materializing template id 1 with an amount override of 0
raises `TypeError` (the `col_name` keyword mismatch), not the claimed
`ValidationError`; and even absent that crash the code's
`if payload["amount"]:` treats 0 as no override, skipping the `<= 0` check
entirely. -/
theorem c8_zero_override_bug :
    (1 : Nat) ∈ (rowsOf dbMain.recurring).map Template.id ∧
    add_recurring_transaction dbMain recZeroOverride = .error Err.typeError ∧
    Err.typeError ≠ Err.valueError :=
  ⟨by simp [dbMain, sampleTemplate, rowsOf], rfl, fun h => Err.noConfusion h⟩

/-- C9 (code bug): even when the template id is present in the
recurring-template collection, materialization fails — with `TypeError`,
before any lookup happens — because `validate_value` has no `col_name`
parameter and only supports name-keyed lookup. -/
theorem c9_template_lookup_bug :
    (1 : Nat) ∈ (rowsOf dbMain.recurring).map Template.id ∧
    add_recurring_transaction dbMain recPlain = .error Err.typeError :=
  ⟨by simp [dbMain, sampleTemplate, rowsOf], rfl⟩

/-- The template-create request and row of the C5 witness, and the states
its concrete creates produce. -/
def pGym : TemplatePayload :=
  { name := "Gym", transaction_type := "Income", amount := 5,
    start_date := none, end_date := none, frequency := "Monthly",
    category := "Food", account := none }

def tmplGym : Template :=
  { id := 2, name := "Gym", transaction_type := "Income", amount := 5,
    start_date := none, end_date := none, frequency := "Monthly",
    category := "Food", account := none }

def dbCatE : DB := { emptyDB with categories := some [sampleCat] }

def dbRec : DB := { dbMain with recurring := some [sampleTemplate, tmplGym] }

/-- Witness for C5's amended statement: concrete successful creates in all
five collections — a bank, an account, a category and a transaction each
get id 1 on their empty collections, and a second recurring template gets
id `max+1 = 2`, fresh and uniqueness-preserving. -/
theorem c5_id_assignment_witness :
    sampleBank.id = 1 ∧ sampleAcc.id = 1 ∧ sampleCat.id = 1 ∧
    txLunch.id = 1 ∧
    txLunch.id ∉ (rowsOf dbMain.transactions).map Transaction.id ∧
    txIdsNodup dbAfterAdd ∧
    tmplGym.id = next_id dbMain.recurring Template.id ∧
    (∀ r ∈ rowsOf dbMain.recurring, r.id < tmplGym.id) ∧
    ((rowsOf dbRec.recurring).map Template.id).Nodup := by
  have hb := (c5_id_assignment emptyDB pBank pAcc "Food" pLunch pGym).1
    sampleBank dbB
    (by simp [add_bank, emptyDB, pBank, sampleBank, dbB, next_id, maxId,
      rowsOf, ensure_id_first_column])
  have ha := (c5_id_assignment dbB pBank pAcc "Food" pLunch pGym).2.1
    sampleAcc dbBA
    (by simp [add_account, validate_value, dbB, pAcc, sampleBank, sampleAcc,
      dbBA, emptyDB, next_id, maxId, rowsOf, ensure_id_first_column])
  have hc := (c5_id_assignment emptyDB pBank pAcc "Food" pLunch pGym).2.2.1
    sampleCat dbCatE
    (by simp [add_category, emptyDB, sampleCat, dbCatE, next_id, maxId,
      rowsOf, ensure_id_first_column])
  have ht := (c5_id_assignment dbMain pBank pAcc "Food" pLunch pGym).2.2.2.1
    txLunch 80 dbAfterAdd add_pLunch_eval
  have hr := (c5_id_assignment dbMain pBank pAcc "Food" pLunch pGym).2.2.2.2
    tmplGym dbRec
    (by
      simp [create_recurring_template, validate_value, dbMain, pGym,
        tmplGym, dbRec, sampleTemplate, sampleCat, sampleAcc, sampleBank,
        next_id, maxId, rowsOf, ensure_id_first_column])
  unfold freshAssign at hb ha hc ht hr
  refine ⟨hb.2.1 rfl, ha.2.1 rfl, hc.2.1 rfl, ht.2.1 rfl, ht.2.2.2.1,
    ?_, hr.1, hr.2.2.1, ?_⟩
  · exact ht.2.2.2.2 (by simp [dbMain, rowsOf])
  · exact hr.2.2.2.2 (by simp [dbMain, rowsOf, sampleTemplate, tmplGym])

end ButterflyFin
